import Mathlib

/-!
Verification development for the Timeline State & Canvas Preview Engine of
ScriptToScene Studio. The definitions below are shallow embeddings of the
JavaScript modules `utils.js`, `state.js`, `editor.js`, the validation module
and the canvas preview module. JavaScript numbers are modelled as rationals,
strings as `String`, arrays as lists; record fields that none of the verified
operations read are omitted from the structures.
-/

namespace Timeline

attribute [local semireducible] Rat.add Rat.sub Rat.mul

/-- Scene record from the data model. Only the fields read by the verified
operations (validation, state store, preview) are modelled. -/
structure Scene where
  scene_id : Int
  scene_type : String
  duration : ℚ
  timestamp : String
  prompt : String
  text_content : String
  visual_fx : String
  status : String
deriving DecidableEq

/-- Allowed visual effects from `utils.js`: `Object.keys(VFX_ICONS)`, in the
source order of the `VFX_ICONS` literal. -/
def ALLOWED_VFX : List String :=
  ["zoom_in", "zoom_out", "pan_left", "pan_right", "fade", "static", "shake", "slow_motion"]

/-- Embeds `formatTimestamp` from `utils.js`. `Math.floor` on the rational is
the integer floor; `Math.floor(totalSeconds / 60)` is floor division; the
JavaScript `%` operator is the truncating remainder. `toString` of an integer
is never empty, so prepending a single zero when the length is below two
implements `padStart(2, '0')`. -/
def formatTimestamp (seconds : ℚ) : String :=
  let totalSeconds : Int := ⌊seconds⌋
  let m : Int := Int.fdiv totalSeconds 60
  let s : Int := Int.tmod totalSeconds 60
  let sStr : String := toString s
  let sStr : String := if sStr.length < 2 then "0" ++ sStr else sStr
  toString m ++ ":" ++ sStr

/-- Recursive worker for `calculateTimestamps`; the accumulator plays the role
of the mutable `cumulative` variable of the source closure. -/
def calculateTimestampsAux (cumulative : ℚ) : List Scene → List Scene
  | [] => []
  | s :: rest =>
    { s with timestamp := formatTimestamp cumulative }
      :: calculateTimestampsAux (cumulative + s.duration) rest

/-- Embeds `calculateTimestamps` from `utils.js`. -/
def calculateTimestamps (scenes : List Scene) : List Scene :=
  calculateTimestampsAux 0 scenes

/-- Embeds `getTotalDuration` from `utils.js` (the reduce over durations from
zero; the `|| 0` fallback is vacuous here because every modelled scene has a
rational duration). -/
def getTotalDuration (scenes : List Scene) : ℚ :=
  scenes.foldl (fun sum s => sum + s.duration) 0

/-- Renders a rational the way JavaScript template interpolation renders the
numbers appearing in validation messages; every value reaching this function
in the verified scenarios is an integer. -/
def ratStr (q : ℚ) : String :=
  if q.den = 1 then toString q.num else toString q

/-- Validation diagnostic record from the validation module. A missing
`fixable` key in the source object is modelled as `false`. -/
structure VError where
  type : String
  sceneId : Option Int
  field : String
  message : String
  suggestion : String
  fixable : Bool := false
deriving DecidableEq

/-- Severity tag `ErrorType.ERROR`. -/
def ErrorType.ERROR : String := "error"

/-- Severity tag `ErrorType.WARNING`. -/
def ErrorType.WARNING : String := "warning"

/-- Scene types that rule 7 exempts from the prompt warning. -/
def noPromptNeeded : List String := ["text", "cta", "transition"]

/-- Models `String.prototype.trim`: drop whitespace from both ends, written
structurally over the character list. -/
def jsTrim (s : String) : String :=
  ⟨(((s.data.dropWhile Char.isWhitespace).reverse.dropWhile Char.isWhitespace).reverse)⟩

/-- Embeds `validateScene`: rules 1, 6, 7 and 8, pushed in source order.
JavaScript truthiness is made explicit: `!scene.duration` is `duration = 0`,
`!x?.trim()` is `x.trim = ""`, and a truthy `scene.visual_fx` is a non-empty
string. -/
def validateScene (scene : Scene) : List VError :=
  (if scene.duration = 0 ∨ scene.duration ≤ 0 then
    [{ type := ErrorType.ERROR, sceneId := some scene.scene_id, field := "duration",
       message := "Scene " ++ toString scene.scene_id ++ ": Duration must be a positive number",
       suggestion := "Set a duration value greater than 0 seconds" }]
   else []) ++
  (if (scene.scene_type = "text" ∨ scene.scene_type = "cta") ∧ jsTrim scene.text_content = "" then
    [{ type := ErrorType.ERROR, sceneId := some scene.scene_id, field := "text_content",
       message := "Scene " ++ toString scene.scene_id ++ ": Text/CTA scenes require text content",
       suggestion := "Add text in the \"Text Content\" field or change scene type" }]
   else []) ++
  (if scene.scene_type ∉ noPromptNeeded ∧ jsTrim scene.prompt = "" then
    [{ type := ErrorType.WARNING, sceneId := some scene.scene_id, field := "prompt",
       message := "Scene " ++ toString scene.scene_id ++ ": Missing prompt for visual scene",
       suggestion := "Add an image generation prompt describing the visual" }]
   else []) ++
  (if scene.visual_fx ≠ "" ∧ scene.visual_fx ∉ ALLOWED_VFX then
    [{ type := ErrorType.ERROR, sceneId := some scene.scene_id, field := "visual_fx",
       message := "Scene " ++ toString scene.scene_id ++ ": Invalid visual effect \"" ++
         scene.visual_fx ++ "\"",
       suggestion := "Use one of: " ++ String.intercalate ", " ALLOWED_VFX,
       fixable := true }]
   else [])

/-- Rule 2 of `validateProject`: duplicate scene ids, detected by comparing
the id count with the size of the deduplicated id collection. -/
def duplicateIdError (scenes : List Scene) : List VError :=
  if (scenes.map Scene.scene_id).length ≠ (scenes.map Scene.scene_id).dedup.length then
    [{ type := ErrorType.ERROR, sceneId := none, field := "scene_id",
       message := "Duplicate scene IDs detected",
       suggestion := "Delete duplicate scenes or renumber them manually" }]
  else []

/-- Rule 3 of `validateProject`: the ids sorted ascending must equal the dense
sequence `1..N`. -/
def sequentialIdError (scenes : List Scene) : List VError :=
  let sorted := List.insertionSort (· ≤ ·) (scenes.map Scene.scene_id)
  let expectedIds := (List.range scenes.length).map (fun i => (i : Int) + 1)
  if sorted ≠ expectedIds then
    [{ type := ErrorType.ERROR, sceneId := none, field := "scene_id",
       message := "Scene IDs are not sequential (expected 1, 2, 3...)",
       suggestion := "Reorder or renumber scenes to be sequential starting from 1" }]
  else []

/-- Rule 4 of `validateProject`: per-scene timestamp mismatch warnings, with
the cumulative duration threaded as accumulator. -/
def timestampWarningsAux (cumulative : ℚ) : List Scene → List VError
  | [] => []
  | s :: rest =>
    (if s.timestamp ≠ formatTimestamp cumulative then
      [{ type := ErrorType.WARNING, sceneId := some s.scene_id, field := "timestamp",
         message := "Scene " ++ toString s.scene_id ++ ": Timestamp mismatch (expected " ++
           formatTimestamp cumulative ++ ", got " ++ s.timestamp ++ ")",
         suggestion := "Timestamps auto-recalculate on save" }]
     else []) ++ timestampWarningsAux (cumulative + s.duration) rest

/-- Rule 5 of `validateProject`: total duration against the project duration,
emitted only when a positive project duration is supplied. -/
def totalDurationWarning (scenes : List Scene) (projectDuration : Option ℚ) : List VError :=
  match projectDuration with
  | none => []
  | some pd =>
    if 0 < pd ∧ getTotalDuration scenes ≠ pd then
      let totalDuration := getTotalDuration scenes
      let diff := pd - totalDuration
      let action := if 0 < diff then "add " ++ ratStr diff ++ "s"
                    else "remove " ++ ratStr |diff| ++ "s"
      [{ type := ErrorType.WARNING, sceneId := none, field := "duration",
         message := "Total duration (" ++ ratStr totalDuration ++
           "s) doesn\x27t match project duration (" ++ ratStr pd ++ "s)",
         suggestion := "Adjust scene durations to " ++ action ++ " total",
         fixable := true }]
    else []

/-- Embeds `validateProject`: early return on an empty scene list, then the
per-scene rules followed by the project-level rules in source order. -/
def validateProject (scenes : List Scene) (projectDuration : Option ℚ) : List VError :=
  if scenes = [] then []
  else
    scenes.flatMap validateScene ++ duplicateIdError scenes ++ sequentialIdError scenes ++
      timestampWarningsAux 0 scenes ++ totalDurationWarning scenes projectDuration

/-- Selects the project-level duration-mismatch warnings (rule 5) out of a
diagnostic list: project level means `sceneId = null`, and rule 5 is the only
rule that reports on field `duration` at project level. -/
def isTotalDurationWarning (e : VError) : Bool :=
  decide (e.sceneId = none) && decide (e.field = "duration")

/-- Selects the diagnostics a scene receives on field `visual_fx`. -/
def vfxDiagnostics (s : Scene) : List VError :=
  (validateScene s).filter (fun e => decide (e.field = "visual_fx"))

/-- History cap `MAX_HISTORY` from `state.js`. -/
def MAX_HISTORY : Nat := 20

/-- Store slice of the `StateManager` singleton touched by the verified
operations: the authoritative scene sequence, the snapshot history and the
history cursor. `historyIndex` is an integer because the source initialises it
to `-1`. Listeners, persistence and the remaining slices have no effect on
these fields and are not modelled. -/
structure Store where
  scenes : List Scene
  history : List (List Scene)
  historyIndex : Int
deriving DecidableEq

namespace StateManager

/-- Initial store from the `StateManager` constructor. -/
def initialStore : Store :=
  { scenes := [], history := [], historyIndex := -1 }

/-- Embeds `_pushHistory`: truncate any redo-able future when the cursor is
not at the tail, push the snapshot (`deepClone` is the identity on values),
then either evict the oldest entry, leaving the cursor in place, or advance
the cursor. -/
def pushHistory (st : Store) (scenes : List Scene) : Store :=
  let history :=
    if st.historyIndex < (st.history.length : Int) - 1 then
      st.history.take (st.historyIndex + 1).toNat
    else st.history
  let history := history ++ [scenes]
  if history.length > MAX_HISTORY then
    { st with history := history.drop 1 }
  else
    { st with history := history, historyIndex := st.historyIndex + 1 }

/-- Embeds `set` for an update carrying a `scenes` key (the only shape the
verified operations use): capture the previous scenes, apply the update,
recalculate timestamps unless `_skipTimestampCalc`, and push the previous
scenes to history unless `skipHistory`. -/
def set (st : Store) (scenes : List Scene) (skipHistory skipTimestampCalc : Bool) : Store :=
  let prevScenes := st.scenes
  let st1 := { st with scenes := scenes }
  let st2 := if skipTimestampCalc then st1
             else { st1 with scenes := calculateTimestamps st1.scenes }
  if skipHistory then st2 else pushHistory st2 prevScenes

/-- Embeds `undo`: at the floor it returns `false` untouched, otherwise it
moves the cursor one step down and loads that snapshot through `set` with
`skipHistory` on and timestamp recalculation on. -/
def undo (st : Store) : Store × Bool :=
  if 0 < st.historyIndex then
    let st1 := { st with historyIndex := st.historyIndex - 1 }
    let scenes := st1.history.getD st1.historyIndex.toNat []
    (set st1 scenes true false, true)
  else (st, false)

/-- Embeds `redo`: at the tail it returns `false` untouched, otherwise it
moves the cursor one step up and loads that snapshot through `set` with
`skipHistory` on and timestamp recalculation on. -/
def redo (st : Store) : Store × Bool :=
  if st.historyIndex < (st.history.length : Int) - 1 then
    let st1 := { st with historyIndex := st.historyIndex + 1 }
    let scenes := st1.history.getD st1.historyIndex.toNat []
    (set st1 scenes true false, true)
  else (st, false)

/-- Patch object passed to `updateScene`; only the keys the verified claims
patch are modelled, an absent key leaves the field untouched, exactly as the
object spread in the source does. -/
structure Patch where
  duration : Option ℚ := none
  visual_fx : Option String := none
deriving DecidableEq

/-- Object spread `{ ...s, ...updates }` for the modelled patch keys. -/
def applyPatch (s : Scene) (p : Patch) : Scene :=
  { s with duration := p.duration.getD s.duration,
           visual_fx := p.visual_fx.getD s.visual_fx }

/-- Embeds `updateScene`: map the patch over the scenes matching the id and
commit through `set` with history enabled. -/
def updateScene (st : Store) (sceneId : Int) (updates : Patch) : Store :=
  let scenes := st.scenes.map (fun s => if s.scene_id = sceneId then applyPatch s updates else s)
  set st scenes false false

/-- Embeds `addScene`. -/
def addScene (st : Store) (scene : Scene) : Store :=
  set st (st.scenes ++ [scene]) false false

/-- Embeds `removeScene`: filter the id out, resequence the ids densely from
one, and commit through `set` with history enabled. The follow-up
`selectedScene` update in the source touches no modelled field. -/
def removeScene (st : Store) (sceneId : Int) : Store :=
  let scenes := ((st.scenes.filter (fun s => decide (s.scene_id ≠ sceneId))).enum).map
    (fun p => { p.2 with scene_id := (p.1 : Int) + 1 })
  set st scenes false false

/-- Embeds `setScenes` on the path where no saved copy exists in local
storage (the durable store is an external collaborator whose failures are
treated as no data): reset the history to the single calculated snapshot and
commit with history and timestamp recalculation both skipped. -/
def setScenes (st : Store) (scenes : List Scene) : Store :=
  let calculated := calculateTimestamps scenes
  let st1 := { st with history := [calculated], historyIndex := 0 }
  set st1 calculated true true

end StateManager

/-- Embeds the `duration` branch of `SceneEditor.handleFix` from `editor.js`:
adjust the last scene by the signed difference to the project duration,
floored at one second, through `StateManager.updateScene`. The guard on a
missing current project is dropped because the project only contributes its
`duration`, passed here directly. -/
def handleFixDuration (st : Store) (projectDuration : ℚ) : Store :=
  if st.scenes = [] then st
  else
    let totalDuration := getTotalDuration st.scenes
    let diff := projectDuration - totalDuration
    if diff = 0 then st
    else
      match st.scenes.getLast? with
      | some lastScene =>
        let newDuration := max 1 (lastScene.duration + diff)
        StateManager.updateScene st lastScene.scene_id { duration := some newDuration }
      | none => st

/-- Edit operations of claim C4: the three history-committing scene mutations
of the store. -/
inductive Op where
  | update (sceneId : Int) (p : StateManager.Patch)
  | add (s : Scene)
  | remove (sceneId : Int)

/-- Applies one edit operation to the store. -/
def step (st : Store) : Op → Store
  | .update sceneId p => StateManager.updateScene st sceneId p
  | .add s => StateManager.addScene st s
  | .remove sceneId => StateManager.removeScene st sceneId

/-- Applies a sequence of edit operations left to right. -/
def runOps (st : Store) (ops : List Op) : Store :=
  ops.foldl step st

/-- History invariant of the store: the cursor sits inside the history (or at
`-1` exactly when the history is empty) and the history respects the cap.
It holds for the initial store and is preserved by every store operation, so
it characterises the reachable store states. -/
def HistoryInv (st : Store) : Prop :=
  -1 ≤ st.historyIndex ∧ st.historyIndex < (st.history.length : Int) ∧
    st.history.length ≤ MAX_HISTORY ∧ (st.history ≠ [] → 0 ≤ st.historyIndex)

instance (st : Store) : Decidable (HistoryInv st) := by
  unfold HistoryInv; infer_instance

namespace CanvasPreview

/-- Embeds `easeInOut` from the canvas preview module. -/
def easeInOut (t : ℚ) : ℚ :=
  if t < 0.5 then 2 * t * t else -1 + (4 - 2 * t) * t

/-- Scale computed by `applyZoomIn`: `startScale = 1.0`, `endScale = 1.2`,
interpolated by `easeInOut` (the canvas translate and scale calls consume this
value unchanged). -/
def applyZoomInScale (progress : ℚ) : ℚ :=
  let startScale : ℚ := 1.0
  let endScale : ℚ := 1.2
  startScale + (endScale - startScale) * easeInOut progress

/-- Recursive worker for `getCurrentScene`; the accumulator plays the role of
the mutable `accumulated` variable of the source loop. Returns the triple the
source returns as `{ scene, localTime, progress }`. -/
def getCurrentSceneAux (time : ℚ) (accumulated : ℚ) : List Scene → Option (Scene × ℚ × ℚ)
  | [] => none
  | s :: rest =>
    if accumulated ≤ time ∧ time < accumulated + s.duration then
      some (s, time - accumulated, (time - accumulated) / s.duration)
    else getCurrentSceneAux time (accumulated + s.duration) rest

/-- Embeds `CanvasPreview.getCurrentScene`, with the playback time passed
explicitly instead of read from `this.currentTime`. -/
def getCurrentScene (scenes : List Scene) (time : ℚ) : Option (Scene × ℚ × ℚ) :=
  getCurrentSceneAux time 0 scenes

/-- Embeds `CanvasPreview.getTotalDuration`: the scenes duration reduce,
floored by the override duration (`this.overrideDuration || 0` is the
override with zero standing for unset). -/
def getTotalDuration (scenes : List Scene) (overrideDuration : ℚ) : ℚ :=
  max (scenes.foldl (fun sum s => sum + s.duration) 0) overrideDuration

/-- Playback state of the preview engine: the fields of the `CanvasPreview`
object that the tick loop reads and writes. `nextFrameId` models the fresh
handles `requestAnimationFrame` returns. -/
structure Preview where
  scenes : List Scene
  currentTime : ℚ
  isPlaying : Bool
  animationId : Option Nat
  overrideDuration : ℚ
  nextFrameId : Nat
deriving DecidableEq

/-- Observable side effects of the tick loop, in emission order: cancelling a
pending animation frame, the `onPlaybackEnd` callback, a `render`, the
`onTimeUpdate` callback, and scheduling the next frame. -/
inductive PEvent where
  | cancelFrame (id : Nat)
  | playbackEnd
  | render
  | timeUpdate (t : ℚ)
  | requestFrame
deriving DecidableEq

/-- Embeds `pause`: clear the playing flag and cancel the pending animation
frame when one is scheduled. -/
def pause (p : Preview) : Preview × List PEvent :=
  let p1 := { p with isPlaying := false }
  match p1.animationId with
  | some fid => ({ p1 with animationId := none }, [PEvent.cancelFrame fid])
  | none => (p1, [])

/-- Embeds `tick`. The elapsed wall-clock delta, respectively the externally
sourced audio time, are passed as inputs in place of `performance.now()` and
`this.externalTimeSource()`. On reaching the total duration the source resets
the time to zero, pauses, fires `onPlaybackEnd`, renders once more and
returns without scheduling a frame; otherwise it renders, fires
`onTimeUpdate` and schedules the next frame. -/
def tick (p : Preview) (delta : ℚ) (externalTime : Option ℚ) : Preview × List PEvent :=
  if p.isPlaying = false then (p, [])
  else
    let newTime := match externalTime with
      | some t => t
      | none => p.currentTime + delta
    let p1 := { p with currentTime := newTime }
    let totalDuration := getTotalDuration p1.scenes p1.overrideDuration
    if totalDuration ≤ p1.currentTime then
      let p2 := { p1 with currentTime := 0 }
      let r := pause p2
      (r.1, r.2 ++ [PEvent.playbackEnd, PEvent.render])
    else
      ({ p1 with animationId := some p1.nextFrameId, nextFrameId := p1.nextFrameId + 1 },
       [PEvent.render, PEvent.timeUpdate p1.currentTime, PEvent.requestFrame])

end CanvasPreview

/-- Total of the scene durations, the quantity the lookup and total-duration
code accumulate. -/
def sumDurations (scenes : List Scene) : ℚ :=
  (scenes.map Scene.duration).sum

/-- Concrete fixture: a three-second hook scene with a canonical timestamp. -/
def cScene1 : Scene :=
  { scene_id := 1, scene_type := "hook", duration := 3, timestamp := "0:00",
    prompt := "studio shot", text_content := "", visual_fx := "static", status := "pending" }

/-- Concrete fixture: a four-second buildup scene with a canonical timestamp. -/
def cScene2 : Scene :=
  { scene_id := 2, scene_type := "buildup", duration := 4, timestamp := "0:03",
    prompt := "close up", text_content := "", visual_fx := "fade", status := "pending" }

/-- Concrete fixture: a three-second peak scene with a canonical timestamp. -/
def cScene3 : Scene :=
  { scene_id := 3, scene_type := "peak", duration := 3, timestamp := "0:07",
    prompt := "wide shot", text_content := "", visual_fx := "zoom_in", status := "pending" }

/-- Concrete fixture: the scene sequence with durations `[3, 4, 3]`. -/
def cScenes : List Scene := [cScene1, cScene2, cScene3]

/-- Store reached by loading the single scene `cScene1` into a fresh store. -/
def c1Store0 : Store := StateManager.setScenes StateManager.initialStore [cScene1]

/-- Store reached from `c1Store0` by one committed edit: scene 1 changes its
duration from 3 to 5. -/
def c1Store1 : Store := StateManager.updateScene c1Store0 1 { duration := some 5 }

/-- Claim C1 (code bug): in the reachable store holding the single committed
edit duration 3 to 5, the history is non-empty, the cursor is above the
floor, `undo` and the immediately following `redo` both succeed, yet the
scene sequence after the round trip differs from the sequence present before
the `undo` — `_pushHistory` stores the pre-mutation snapshot while the cursor
arithmetic of `undo`/`redo` assumes the post-mutation snapshot was stored, so
`redo` can never restore the most recent edit. -/
theorem undo_redo_drops_latest_edit :
    c1Store1.history ≠ [] ∧ 0 < c1Store1.historyIndex ∧
    (StateManager.undo c1Store1).2 = true ∧
    (StateManager.redo (StateManager.undo c1Store1).1).2 = true ∧
    (StateManager.redo (StateManager.undo c1Store1).1).1.scenes ≠ c1Store1.scenes := by
  decide

/-- Every diagnostic of `validateScene` carries a scene id, so none of them is
a project-level duration-mismatch warning. -/
lemma validateScene_no_total (s : Scene) :
    (validateScene s).filter isTotalDurationWarning = [] := by
  unfold validateScene
  simp only [List.filter_append]
  split_ifs <;> simp [isTotalDurationWarning]

/-- Per-scene diagnostics of a whole scene list contain no project-level
duration-mismatch warning. -/
lemma flatMap_no_total (scenes : List Scene) :
    (scenes.flatMap validateScene).filter isTotalDurationWarning = [] := by
  induction scenes with
  | nil => rfl
  | cons s r ih =>
    simp only [List.flatMap_cons, List.filter_append, validateScene_no_total, ih,
      List.nil_append]

/-- The duplicate-id rule reports on field `scene_id`, never on `duration`. -/
lemma duplicateIdError_no_total (scenes : List Scene) :
    (duplicateIdError scenes).filter isTotalDurationWarning = [] := by
  unfold duplicateIdError
  split <;> simp [isTotalDurationWarning]

/-- The sequential-id rule reports on field `scene_id`, never on `duration`. -/
lemma sequentialIdError_no_total (scenes : List Scene) :
    (sequentialIdError scenes).filter isTotalDurationWarning = [] := by
  simp only [sequentialIdError]
  split <;> simp [isTotalDurationWarning]

/-- The timestamp rule reports on field `timestamp`, never on `duration`. -/
lemma timestampWarnings_no_total (c : ℚ) (scenes : List Scene) :
    (timestampWarningsAux c scenes).filter isTotalDurationWarning = [] := by
  induction scenes generalizing c with
  | nil => rfl
  | cons s r ih =>
    unfold timestampWarningsAux
    simp only [List.filter_append, ih]
    split <;> simp [isTotalDurationWarning]

/-- The duration-mismatch warnings of a full validation pass are exactly the
output of rule 5. -/
lemma validateProject_total_filter (scenes : List Scene) (pd : Option ℚ)
    (h : scenes ≠ []) :
    (validateProject scenes pd).filter isTotalDurationWarning =
      (totalDurationWarning scenes pd).filter isTotalDurationWarning := by
  unfold validateProject
  rw [if_neg h]
  simp only [List.filter_append, flatMap_no_total, duplicateIdError_no_total,
    sequentialIdError_no_total, timestampWarnings_no_total, List.nil_append]

/-- Timestamp recalculation never changes any duration. -/
lemma calculateTimestampsAux_map_duration (c : ℚ) (xs : List Scene) :
    (calculateTimestampsAux c xs).map Scene.duration = xs.map Scene.duration := by
  induction xs generalizing c with
  | nil => rfl
  | cons s r ih => simp [calculateTimestampsAux, ih]

/-- Wrapper of the previous lemma for `calculateTimestamps`. -/
lemma calculateTimestamps_map_duration (xs : List Scene) :
    (calculateTimestamps xs).map Scene.duration = xs.map Scene.duration :=
  calculateTimestampsAux_map_duration 0 xs

/-- The scene sequence a history-committing `set` leaves in the store is the
recalculated update; the history bookkeeping touches no scene data. -/
lemma set_scenes (st : Store) (sc : List Scene) :
    (StateManager.set st sc false false).scenes = calculateTimestamps sc := by
  unfold StateManager.set StateManager.pushHistory
  simp only [Bool.false_eq_true, if_false]
  split <;> split <;> rfl

/-- Scene sequence after `updateScene`: the patched map, recalculated. -/
lemma updateScene_scenes (st : Store) (sceneId : Int) (p : StateManager.Patch) :
    (StateManager.updateScene st sceneId p).scenes =
      calculateTimestamps
        (st.scenes.map fun s => if s.scene_id = sceneId then StateManager.applyPatch s p else s) := by
  unfold StateManager.updateScene
  exact set_scenes _ _

/-- Claim C2 (amended): for a scene sequence with durations `[3, 4, 3]` (total
10) and ids `[1, 2, 3]`, validating against a target duration of 10 produces
no duration-mismatch warning; validating against a target duration of 11
produces exactly one duration-mismatch warning, a fixable warning whose
suggestion says to add 1s; and applying the auto-fix for target 11 sets the
last scene duration to 4 while leaving the other durations unchanged. -/
theorem duration_mismatch_scenario (scenes : List Scene)
    (hd : scenes.map Scene.duration = [3, 4, 3])
    (hid : scenes.map Scene.scene_id = [1, 2, 3]) :
    (validateProject scenes (some 10)).filter isTotalDurationWarning = [] ∧
    ((validateProject scenes (some 11)).filter isTotalDurationWarning).map
      (fun e => (e.type, e.fixable, e.suggestion)) =
      [("warning", true, "Adjust scene durations to add 1s total")] ∧
    ((handleFixDuration { scenes := scenes, history := [], historyIndex := -1 } 11).scenes.map
      Scene.duration) = [3, 4, 4] := by
  obtain ⟨a, b, c, rfl⟩ : ∃ a b c, scenes = [a, b, c] := by
    rcases scenes with _ | ⟨a, _ | ⟨b, _ | ⟨c, _ | ⟨d, rest⟩⟩⟩⟩ <;> simp at hd
    exact ⟨a, b, c, rfl⟩
  obtain ⟨ha, hb, hc⟩ : a.duration = 3 ∧ b.duration = 4 ∧ c.duration = 3 := by
    simpa using hd
  obtain ⟨hia, hib, hic⟩ : a.scene_id = 1 ∧ b.scene_id = 2 ∧ c.scene_id = 3 := by
    simpa using hid
  have htot : getTotalDuration [a, b, c] = 10 := by
    simp only [getTotalDuration, List.foldl, ha, hb, hc]
    norm_num
  refine ⟨?_, ?_, ?_⟩
  · rw [validateProject_total_filter _ _ (by simp)]
    simp only [totalDurationWarning, htot]
    rw [if_neg (by norm_num)]
    rfl
  · rw [validateProject_total_filter _ _ (by simp)]
    simp only [totalDurationWarning, htot]
    rw [if_pos (by norm_num), if_pos (by norm_num)]
    have h1 : (11 : ℚ) - 10 = 1 := by norm_num
    rw [h1]
    decide
  · simp only [handleFixDuration, htot]
    rw [if_neg (by simp), if_neg (by norm_num)]
    simp only [List.getLast?_cons_cons, List.getLast?_singleton]
    rw [updateScene_scenes, calculateTimestamps_map_duration]
    simp only [List.map_cons, List.map_nil, hia, hib, hic]
    norm_num [StateManager.applyPatch, ha, hb, hc]

/-- Claim C2 (counterexample): on the concrete scene sequence with durations
`[3, 4, 3]` — whose total is 10, not 11 — validating against a target of 11
already produces the duration-mismatch warning suggesting to add 1s, and at a
target of 12 the warning suggests to add 2s while the auto-fix sets the last
scene duration to 5, not 4. -/
theorem duration_scenario_claim_fails :
    ((validateProject cScenes (some 11)).filter isTotalDurationWarning).map
      (fun e => e.suggestion) = ["Adjust scene durations to add 1s total"] ∧
    ((validateProject cScenes (some 12)).filter isTotalDurationWarning).map
      (fun e => e.suggestion) = ["Adjust scene durations to add 2s total"] ∧
    ((handleFixDuration { scenes := cScenes, history := [], historyIndex := -1 } 12).scenes.map
      Scene.duration) = [3, 4, 5] := by
  have htot : getTotalDuration cScenes = 10 := by
    simp only [getTotalDuration, cScenes, cScene1, cScene2, cScene3, List.foldl]
    norm_num
  refine ⟨?_, ?_, ?_⟩
  · rw [validateProject_total_filter _ _ (by simp [cScenes])]
    simp only [totalDurationWarning, htot]
    rw [if_pos (by norm_num), if_pos (by norm_num)]
    have h1 : (11 : ℚ) - 10 = 1 := by norm_num
    rw [h1]
    decide
  · rw [validateProject_total_filter _ _ (by simp [cScenes])]
    simp only [totalDurationWarning, htot]
    rw [if_pos (by norm_num), if_pos (by norm_num)]
    have h2 : (12 : ℚ) - 10 = 2 := by norm_num
    rw [h2]
    decide
  · simp only [handleFixDuration, htot]
    rw [if_neg (by simp [cScenes]), if_neg (by norm_num)]
    simp only [cScenes, List.getLast?_cons_cons, List.getLast?_singleton]
    rw [updateScene_scenes, calculateTimestamps_map_duration]
    simp only [List.map_cons, List.map_nil]
    norm_num [cScene1, cScene2, cScene3, StateManager.applyPatch]

/-- Witness for the amended claim C2 at the concrete scene sequence. -/
theorem duration_mismatch_scenario_witness :
    cScenes.map Scene.duration = [3, 4, 3] ∧
    (validateProject cScenes (some 10)).filter isTotalDurationWarning = [] :=
  ⟨by decide, (duration_mismatch_scenario cScenes (by decide) (by decide)).1⟩

/-- Claim C3 (amended): a scene whose `visual_fx` lies in the allowed list —
zoom_in, zoom_out, pan_left, pan_right, fade, static, shake, slow_motion —
receives no `visual_fx` diagnostic, and a scene whose `visual_fx` is set to a
non-empty value outside that list receives exactly one error-severity
`visual_fx` diagnostic flagged fixable. -/
theorem visual_fx_rule (s : Scene) :
    (s.visual_fx ∈ ALLOWED_VFX → vfxDiagnostics s = []) ∧
    (s.visual_fx ≠ "" → s.visual_fx ∉ ALLOWED_VFX →
      (vfxDiagnostics s).map (fun e => (e.type, e.sceneId, e.fixable)) =
        [("error", some s.scene_id, true)]) := by
  constructor
  · intro hmem
    have h4 : ¬(s.visual_fx ≠ "" ∧ s.visual_fx ∉ ALLOWED_VFX) := fun h => h.2 hmem
    unfold vfxDiagnostics validateScene
    rw [if_neg h4]
    simp only [List.filter_append]
    split_ifs <;> simp
  · intro hne hnotmem
    unfold vfxDiagnostics validateScene
    simp only [List.filter_append]
    split_ifs <;>
      first
        | exact absurd (And.intro hne hnotmem) (by assumption)
        | simp [ErrorType.ERROR]

/-- Claim C3 (counterexample): `pan_up` is one of the nine effect names the
claim allows, yet the validator emits a fixable error for a scene carrying
it, because the allowed list of the code has no pan_up entry. -/
theorem pan_up_rejected :
    (vfxDiagnostics { cScene1 with visual_fx := "pan_up" }).map (fun e => (e.type, e.fixable)) =
      [("error", true)] := by
  decide

/-- Witness for the amended claim C3 at a concrete out-of-list scene. -/
theorem visual_fx_rule_witness :
    ("pan_down" ∉ ALLOWED_VFX) ∧
    (vfxDiagnostics { cScene2 with visual_fx := "pan_down" }).map
      (fun e => (e.type, e.sceneId, e.fixable)) = [("error", some 2, true)] :=
  ⟨by decide, by
    have h := (visual_fx_rule { cScene2 with visual_fx := "pan_down" }).2 (by decide) (by decide)
    simpa [cScene2] using h⟩

/-- After any push the cursor sits exactly on the new tail and the history
respects the cap: the core bookkeeping fact behind claims C4 and C5. -/
lemma pushHistory_bounds (st : Store) (sc : List Scene)
    (h1 : -1 ≤ st.historyIndex) (h2 : st.historyIndex < (st.history.length : Int))
    (h3 : st.history.length ≤ MAX_HISTORY) :
    0 ≤ (StateManager.pushHistory st sc).historyIndex ∧
    (StateManager.pushHistory st sc).historyIndex =
      ((StateManager.pushHistory st sc).history.length : Int) - 1 ∧
    (StateManager.pushHistory st sc).history.length ≤ MAX_HISTORY := by
  simp only [StateManager.pushHistory]
  split_ifs with htrunc hovf hovf <;>
    simp_all [List.length_append, List.length_take, List.length_drop, MAX_HISTORY] <;>
    omega

/-- Every edit operation routes through `set` with history enabled, hence
through `pushHistory` applied to the pre-mutation scene snapshot. -/
lemma step_eq_pushHistory (st : Store) (op : Op) :
    ∃ sc, step st op = StateManager.pushHistory { st with scenes := sc } st.scenes := by
  cases op with
  | update sceneId p => exact ⟨_, rfl⟩
  | add s => exact ⟨_, rfl⟩
  | remove sceneId => exact ⟨_, rfl⟩

/-- The history invariant is preserved by every edit operation. -/
lemma step_inv (st : Store) (op : Op) (h : HistoryInv st) : HistoryInv (step st op) := by
  obtain ⟨sc, hs⟩ := step_eq_pushHistory st op
  rw [hs]
  obtain ⟨h1, h2, h3, _⟩ := h
  obtain ⟨p1, p2, p3⟩ := pushHistory_bounds { st with scenes := sc } st.scenes h1 h2 h3
  exact ⟨by omega, by omega, p3, fun _ => p1⟩

/-- The history invariant is preserved by every sequence of edit operations. -/
lemma runOps_inv (st : Store) (ops : List Op) (h : HistoryInv st) : HistoryInv (runOps st ops) := by
  induction ops generalizing st with
  | nil => exact h
  | cons op rest ih => exact ih (step st op) (step_inv st op h)

/-- Claim C4: starting from any store satisfying the history invariant (which
holds for the initial store and is preserved by every store operation, hence
on all reachable stores), after any sequence of `updateScene`, `addScene` and
`removeScene` calls the history length never exceeds the cap of 20, and
whenever the history is non-empty the cursor satisfies
`0 <= historyIndex < history.length`. -/
theorem history_bounded (st : Store) (ops : List Op) (h : HistoryInv st) :
    (runOps st ops).history.length ≤ MAX_HISTORY ∧
    ((runOps st ops).history ≠ [] →
      0 ≤ (runOps st ops).historyIndex ∧
      (runOps st ops).historyIndex < ((runOps st ops).history.length : Int)) := by
  obtain ⟨q1, q2, q3, q4⟩ := runOps_inv st ops h
  exact ⟨q3, fun hne => ⟨q4 hne, q2⟩⟩

/-- Witness for claim C4 at the initial store and a concrete edit sequence. -/
theorem history_bounded_witness :
    HistoryInv StateManager.initialStore ∧
    ((runOps StateManager.initialStore
        [Op.add cScene1, Op.update 1 { duration := some 5 }, Op.remove 1]).history.length ≤
        MAX_HISTORY ∧
      ((runOps StateManager.initialStore
          [Op.add cScene1, Op.update 1 { duration := some 5 }, Op.remove 1]).history ≠ [] →
        0 ≤ (runOps StateManager.initialStore
            [Op.add cScene1, Op.update 1 { duration := some 5 }, Op.remove 1]).historyIndex ∧
        (runOps StateManager.initialStore
            [Op.add cScene1, Op.update 1 { duration := some 5 }, Op.remove 1]).historyIndex <
          ((runOps StateManager.initialStore
              [Op.add cScene1, Op.update 1 { duration := some 5 }, Op.remove 1]).history.length :
            Int))) :=
  ⟨by decide, history_bounded StateManager.initialStore
    [Op.add cScene1, Op.update 1 { duration := some 5 }, Op.remove 1] (by decide)⟩

/-- Claim C5: committing any edit (`updateScene`, `addScene` or `removeScene`)
while the cursor is below the tail discards every history entry after the
cursor — the new history is the prefix up to the cursor followed by the
pre-mutation snapshot — and immediately afterwards the cursor is at the tail
and `redo` fails, returning `false` and leaving the store untouched. -/
theorem commit_truncates_future (st : Store) (op : Op)
    (h0 : 0 ≤ st.historyIndex) (h1 : st.historyIndex < (st.history.length : Int) - 1)
    (h2 : st.history.length ≤ MAX_HISTORY) :
    (step st op).history = st.history.take (st.historyIndex + 1).toNat ++ [st.scenes] ∧
    (step st op).historyIndex = ((step st op).history.length : Int) - 1 ∧
    StateManager.redo (step st op) = (step st op, false) := by
  obtain ⟨sc, hs⟩ := step_eq_pushHistory st op
  rw [hs]
  simp only [MAX_HISTORY] at h2
  simp only [StateManager.pushHistory]
  rw [if_pos h1]
  have hlen : (st.history.take (st.historyIndex + 1).toNat ++ [st.scenes]).length =
      (st.historyIndex + 1).toNat + 1 := by
    simp only [List.length_append, List.length_take, List.length_singleton]
    omega
  rw [if_neg (by simp only [hlen, MAX_HISTORY]; omega)]
  refine ⟨rfl, ?_, ?_⟩
  · simp only [hlen]
    push_cast
    omega
  · unfold StateManager.redo
    rw [if_neg (by simp only [hlen]; push_cast; omega)]

/-- Witness for claim C5 at a concrete mid-history store. -/
theorem commit_truncates_future_witness :
    (step ({ scenes := [cScene1], history := [[], []], historyIndex := 0 } : Store)
        (Op.remove 99)).history =
      ([[], []] : List (List Scene)).take ((0 : Int) + 1).toNat ++ [[cScene1]] ∧
    (step ({ scenes := [cScene1], history := [[], []], historyIndex := 0 } : Store)
        (Op.remove 99)).historyIndex =
      ((step ({ scenes := [cScene1], history := [[], []], historyIndex := 0 } : Store)
          (Op.remove 99)).history.length : Int) - 1 ∧
    StateManager.redo
        (step ({ scenes := [cScene1], history := [[], []], historyIndex := 0 } : Store)
          (Op.remove 99)) =
      (step ({ scenes := [cScene1], history := [[], []], historyIndex := 0 } : Store)
        (Op.remove 99), false) :=
  commit_truncates_future { scenes := [cScene1], history := [[], []], historyIndex := 0 }
    (Op.remove 99) (by decide) (by decide) (by decide)

/-- Timestamps produced by the worker are the formatted prefix sums shifted by
the accumulator. -/
lemma calculateTimestampsAux_map_timestamp (c : ℚ) (xs : List Scene) :
    (calculateTimestampsAux c xs).map Scene.timestamp =
      (List.range xs.length).map
        (fun i => formatTimestamp (c + ((xs.take i).map Scene.duration).sum)) := by
  induction xs generalizing c with
  | nil => rfl
  | cons x r ih =>
    simp only [calculateTimestampsAux, List.map_cons, List.length_cons,
      List.range_succ_eq_map, List.map_map]
    rw [ih (c + x.duration)]
    congr 1
    · simp
    · apply List.map_congr_left
      intro i _
      simp only [Function.comp_apply, List.take_succ_cons, List.map_cons, List.sum_cons]
      rw [add_assoc]

/-- Recalculating already recalculated scenes recalculates the original
scenes: the worker only overwrites the timestamp field it derives from the
untouched durations. -/
lemma calculateTimestampsAux_comp (c1 c2 : ℚ) (xs : List Scene) :
    calculateTimestampsAux c1 (calculateTimestampsAux c2 xs) = calculateTimestampsAux c1 xs := by
  induction xs generalizing c1 c2 with
  | nil => rfl
  | cons x r ih => simp [calculateTimestampsAux, ih]

/-- Claim C6: the timestamp of the i-th scene returned by the Timestamp
Calculator is the formatted cumulative sum of all prior durations, the
calculator is idempotent, and the format floors fractional seconds and
zero-pads seconds to two digits (witnessed on 3.9 seconds and 65 seconds). -/
theorem calculateTimestamps_cumulative_idempotent (scenes : List Scene) :
    (calculateTimestamps scenes).map Scene.timestamp =
      (List.range scenes.length).map
        (fun i => formatTimestamp (((scenes.take i).map Scene.duration).sum)) ∧
    calculateTimestamps (calculateTimestamps scenes) = calculateTimestamps scenes ∧
    formatTimestamp (mkRat 39 10) = "0:03" ∧ formatTimestamp 65 = "1:05" := by
  refine ⟨?_, calculateTimestampsAux_comp 0 0 scenes, by decide, by decide⟩
  have h := calculateTimestampsAux_map_timestamp 0 scenes
  simpa using h

/-- Claim C7: when no scene carries the addressed id, `updateScene` leaves the
scene sequence unchanged — it is a total function of the store (never throws)
whose patch map matches nothing, and the concluding timestamp recalculation
fixes any store whose timestamps are already canonical, which every store
reachable through the store operations is. -/
theorem updateScene_missing_id_noop (st : Store) (sceneId : Int) (p : StateManager.Patch)
    (hmiss : ∀ s ∈ st.scenes, s.scene_id ≠ sceneId)
    (hcanon : calculateTimestamps st.scenes = st.scenes) :
    (StateManager.updateScene st sceneId p).scenes = st.scenes := by
  rw [updateScene_scenes]
  have hmap : (st.scenes.map fun s =>
      if s.scene_id = sceneId then StateManager.applyPatch s p else s) = st.scenes := by
    have hpt : ∀ s ∈ st.scenes,
        (if s.scene_id = sceneId then StateManager.applyPatch s p else s) = id s :=
      fun s hs => if_neg (hmiss s hs)
    rw [List.map_congr_left hpt, List.map_id]
  rw [hmap, hcanon]

/-- Witness for claim C7 at a concrete canonical store and an absent id. -/
theorem updateScene_missing_id_noop_witness :
    (∀ s ∈ ({ scenes := [cScene1], history := [[cScene1]], historyIndex := 0 } : Store).scenes,
      s.scene_id ≠ 99) ∧
    (StateManager.updateScene { scenes := [cScene1], history := [[cScene1]], historyIndex := 0 }
        99 { duration := some 7 }).scenes = [cScene1] :=
  ⟨by decide, updateScene_missing_id_noop
    { scenes := [cScene1], history := [[cScene1]], historyIndex := 0 } 99
    { duration := some 7 } (by decide) (by decide)⟩

/-- The duration reduce of the preview engine, started from any accumulator,
is that accumulator plus the duration total. -/
lemma foldl_add_durations (acc : ℚ) (xs : List Scene) :
    xs.foldl (fun sum s => sum + s.duration) acc = acc + sumDurations xs := by
  induction xs generalizing acc with
  | nil => simp [sumDurations]
  | cons x r ih =>
    simp only [List.foldl_cons, ih, sumDurations, List.map_cons, List.sum_cons]
    ring

/-- Positive durations have a nonnegative total. -/
lemma sumDurations_nonneg (xs : List Scene) (hpos : ∀ s ∈ xs, 0 < s.duration) :
    0 ≤ sumDurations xs := by
  apply List.sum_nonneg
  intro q hq
  obtain ⟨s, hs, rfl⟩ := List.mem_map.mp hq
  exact le_of_lt (hpos s hs)

/-- Past the end of all scenes, the lookup loop falls off the list. -/
lemma getCurrentSceneAux_none (t : ℚ) (acc : ℚ) (xs : List Scene)
    (hpos : ∀ s ∈ xs, 0 < s.duration) (h : acc + sumDurations xs ≤ t) :
    CanvasPreview.getCurrentSceneAux t acc xs = none := by
  induction xs generalizing acc with
  | nil => rfl
  | cons x r ih =>
    have hr : ∀ s ∈ r, (0:ℚ) < s.duration := fun s hs => hpos s (List.mem_cons_of_mem _ hs)
    have hsum : 0 ≤ sumDurations r := sumDurations_nonneg r hr
    have hxs : sumDurations (x :: r) = x.duration + sumDurations r := by
      simp [sumDurations]
    rw [hxs] at h
    unfold CanvasPreview.getCurrentSceneAux
    rw [if_neg (by rintro ⟨h1, h2⟩; linarith)]
    exact ih (acc + x.duration) hr (by linarith)

/-- Inside the k-th cumulative interval, the lookup loop returns the k-th
scene together with its local time and progress. -/
lemma getCurrentSceneAux_found (t : ℚ) (acc : ℚ) (xs : List Scene) (k : Nat) (hk : k < xs.length)
    (hpos : ∀ s ∈ xs, 0 < s.duration)
    (hlo : acc + sumDurations (xs.take k) ≤ t)
    (hhi : t < acc + sumDurations (xs.take k) + (xs.get ⟨k, hk⟩).duration) :
    CanvasPreview.getCurrentSceneAux t acc xs =
      some (xs.get ⟨k, hk⟩, t - (acc + sumDurations (xs.take k)),
        (t - (acc + sumDurations (xs.take k))) / (xs.get ⟨k, hk⟩).duration) := by
  induction xs generalizing acc k with
  | nil => exact absurd hk (by simp)
  | cons x r ih =>
    cases k with
    | zero =>
      simp only [List.take_zero, sumDurations, List.map_nil, List.sum_nil, add_zero,
        List.get_cons_zero] at hlo hhi ⊢
      unfold CanvasPreview.getCurrentSceneAux
      rw [if_pos ⟨hlo, hhi⟩]
      rfl
    | succ k =>
      have hk' : k < r.length := by simpa using hk
      have hr : ∀ s ∈ r, (0:ℚ) < s.duration := fun s hs => hpos s (List.mem_cons_of_mem _ hs)
      have hsum : 0 ≤ sumDurations (r.take k) :=
        sumDurations_nonneg _ (fun s hs => hr s (List.take_subset k r hs))
      have htk : sumDurations ((x :: r).take (k + 1)) =
          x.duration + sumDurations (r.take k) := by
        simp [sumDurations, List.take_succ_cons]
      have hget : (x :: r).get ⟨k + 1, hk⟩ = r.get ⟨k, hk'⟩ := rfl
      have harr : acc + (x.duration + sumDurations (r.take k)) =
          (acc + x.duration) + sumDurations (r.take k) := by ring
      rw [hget] at hhi ⊢
      rw [htk, harr] at hlo hhi
      unfold CanvasPreview.getCurrentSceneAux
      rw [if_neg (by rintro ⟨h1, h2⟩; linarith)]
      rw [htk, harr]
      exact ih (acc + x.duration) k hk' hr hlo hhi

/-- Claim C8: with all durations positive, `getCurrentScene` returns the k-th
scene with progress in `[0, 1)` whenever the current time lies inside the
half-open interval starting at the k-th cumulative start, and returns `null`
whenever the current time has reached the total duration (in particular at or
past the end of all scenes, whatever the override duration). -/
theorem getCurrentScene_lookup (scenes : List Scene) (t : ℚ) (ov : ℚ)
    (hpos : ∀ s ∈ scenes, 0 < s.duration) :
    (CanvasPreview.getTotalDuration scenes ov ≤ t →
      CanvasPreview.getCurrentScene scenes t = none) ∧
    (∀ k, ∀ hk : k < scenes.length,
      sumDurations (scenes.take k) ≤ t →
      t < sumDurations (scenes.take k) + (scenes.get ⟨k, hk⟩).duration →
      CanvasPreview.getCurrentScene scenes t =
        some (scenes.get ⟨k, hk⟩, t - sumDurations (scenes.take k),
          (t - sumDurations (scenes.take k)) / (scenes.get ⟨k, hk⟩).duration) ∧
      0 ≤ (t - sumDurations (scenes.take k)) / (scenes.get ⟨k, hk⟩).duration ∧
      (t - sumDurations (scenes.take k)) / (scenes.get ⟨k, hk⟩).duration < 1) := by
  constructor
  · intro h
    have hmax : sumDurations scenes ≤ CanvasPreview.getTotalDuration scenes ov := by
      unfold CanvasPreview.getTotalDuration
      rw [foldl_add_durations, zero_add]
      exact le_max_left _ _
    exact getCurrentSceneAux_none t 0 scenes hpos (by rw [zero_add]; linarith)
  · intro k hk hlo hhi
    have hd : 0 < (scenes.get ⟨k, hk⟩).duration := hpos _ (List.get_mem scenes k hk)
    have hfound := getCurrentSceneAux_found t 0 scenes k hk hpos
      (by rw [zero_add]; exact hlo) (by rw [zero_add]; exact hhi)
    refine ⟨by simpa [CanvasPreview.getCurrentScene] using hfound, ?_, ?_⟩
    · exact div_nonneg (by linarith) (le_of_lt hd)
    · rw [div_lt_one hd]
      linarith

/-- Witness for claim C8: time 10 is past the end of the concrete scenes. -/
theorem getCurrentScene_lookup_witness :
    (∀ s ∈ cScenes, 0 < s.duration) ∧ CanvasPreview.getCurrentScene cScenes 10 = none :=
  ⟨by decide, (getCurrentScene_lookup cScenes 10 0 (by decide)).1 (by
    unfold CanvasPreview.getTotalDuration
    rw [foldl_add_durations, zero_add]
    have : sumDurations cScenes = 10 := by
      simp only [sumDurations, cScenes, cScene1, cScene2, cScene3, List.map_cons, List.map_nil,
        List.sum_cons, List.sum_nil]
      norm_num
    rw [this]
    norm_num)⟩

/-- Claim C9: the zoom-in effect scales from 1.0 at progress 0 to 1.2 at
progress 1, the interpolation factor is exactly the claimed piecewise easing
curve, and at progress one half the scale is 1.1. -/
theorem zoom_in_scale :
    CanvasPreview.applyZoomInScale 0 = 1 ∧
    CanvasPreview.applyZoomInScale 1 = 12 / 10 ∧
    (∀ t : ℚ, CanvasPreview.applyZoomInScale t =
      1 + (2 / 10) * (if t < 1 / 2 then 2 * t * t else -1 + (4 - 2 * t) * t)) ∧
    CanvasPreview.applyZoomInScale (1 / 2) = 11 / 10 := by
  have hcurve : ∀ t : ℚ, CanvasPreview.applyZoomInScale t =
      1 + (2 / 10) * (if t < 1 / 2 then 2 * t * t else -1 + (4 - 2 * t) * t) := by
    intro t
    simp only [CanvasPreview.applyZoomInScale, CanvasPreview.easeInOut]
    have hhalf : (0.5 : ℚ) = 1 / 2 := by norm_num
    rw [hhalf]
    split_ifs <;> ring_nf
  refine ⟨?_, ?_, hcurve, ?_⟩
  · rw [hcurve 0, if_pos (by norm_num)]
    norm_num
  · rw [hcurve 1, if_neg (by norm_num)]
    norm_num
  · rw [hcurve (1 / 2), if_neg (by norm_num)]
    norm_num

/-- Claim C10: a playing tick whose advanced time reaches the total duration
resets the current time to zero, stops playback, cancels any pending
animation frame, and emits exactly the cancel (when a frame was pending),
`onPlaybackEnd` and final render effects, scheduling no further frame. -/
theorem tick_end_of_timeline (p : CanvasPreview.Preview) (delta : ℚ)
    (externalTime : Option ℚ) (hplay : p.isPlaying = true)
    (hend : CanvasPreview.getTotalDuration p.scenes p.overrideDuration ≤
      externalTime.getD (p.currentTime + delta)) :
    (CanvasPreview.tick p delta externalTime).1.currentTime = 0 ∧
    (CanvasPreview.tick p delta externalTime).1.isPlaying = false ∧
    (CanvasPreview.tick p delta externalTime).1.animationId = none ∧
    (CanvasPreview.tick p delta externalTime).2 =
      (match p.animationId with
        | some fid => [CanvasPreview.PEvent.cancelFrame fid]
        | none => []) ++
        [CanvasPreview.PEvent.playbackEnd, CanvasPreview.PEvent.render] := by
  unfold CanvasPreview.tick
  rw [if_neg (by simp [hplay])]
  cases externalTime with
  | none =>
    simp only [Option.getD] at hend
    rw [if_pos hend]
    simp only [CanvasPreview.pause]
    cases p.animationId <;> simp
  | some tExt =>
    simp only [Option.getD] at hend
    rw [if_pos hend]
    simp only [CanvasPreview.pause]
    cases p.animationId <;> simp

/-- Witness for claim C10 at a concrete playing preview that overruns its
total duration. -/
theorem tick_end_of_timeline_witness :
    (({ scenes := [cScene1], currentTime := 2, isPlaying := true, animationId := some 7,
        overrideDuration := 0, nextFrameId := 8 } : CanvasPreview.Preview).isPlaying = true) ∧
    (CanvasPreview.tick
        { scenes := [cScene1], currentTime := 2, isPlaying := true, animationId := some 7,
          overrideDuration := 0, nextFrameId := 8 } 5 none).1.currentTime = 0 ∧
    (CanvasPreview.tick
        { scenes := [cScene1], currentTime := 2, isPlaying := true, animationId := some 7,
          overrideDuration := 0, nextFrameId := 8 } 5 none).1.isPlaying = false ∧
    (CanvasPreview.tick
        { scenes := [cScene1], currentTime := 2, isPlaying := true, animationId := some 7,
          overrideDuration := 0, nextFrameId := 8 } 5 none).1.animationId = none ∧
    (CanvasPreview.tick
        { scenes := [cScene1], currentTime := 2, isPlaying := true, animationId := some 7,
          overrideDuration := 0, nextFrameId := 8 } 5 none).2 =
      [CanvasPreview.PEvent.cancelFrame 7, CanvasPreview.PEvent.playbackEnd,
        CanvasPreview.PEvent.render] := by
  refine ⟨rfl, ?_⟩
  have h := tick_end_of_timeline
    { scenes := [cScene1], currentTime := 2, isPlaying := true, animationId := some 7,
      overrideDuration := 0, nextFrameId := 8 } 5 none rfl (by
        unfold CanvasPreview.getTotalDuration
        rw [foldl_add_durations, zero_add]
        have : sumDurations [cScene1] = 3 := by
          simp [sumDurations, cScene1]
        rw [this]
        norm_num)
  simpa using h

end Timeline
